import Mathlib

/-!
Shallow embedding of the SVIS (Simple Visual-Inertial Synchronization) engine,
translated from the SVISNodelet class of svis_ros_nodelet.cc.  Machine
integers are modelled as Nat with explicit reductions modulo 256, 65536 and
4294967296 (2 ^ 8, 2 ^ 16, 2 ^ 32) at the operations where the C++ types
uint8_t, uint16_t and unsigned int wrap; IEEE doubles and floats are modelled
as exact rationals.
-/

namespace Svis

/-- Bytes of an inbound HID frame; each entry is the unsigned value of the
corresponding char, i.e. buf[i] & 0xFF in the source. -/
abbrev ByteBuf := List Nat

/-- Value of buf[i]; reads outside the frame give 0. -/
def readU8 (buf : ByteBuf) (i : Nat) : Nat := buf.getD i 0

/-- Little-endian uint16_t at offset i, as read by memcpy in the source. -/
def readU16 (buf : ByteBuf) (i : Nat) : Nat :=
  readU8 buf i + 256 * readU8 buf (i + 1)

/-- Little-endian uint32_t at offset i. -/
def readU32 (buf : ByteBuf) (i : Nat) : Nat :=
  readU8 buf i + 256 * readU8 buf (i + 1) + 65536 * readU8 buf (i + 2) +
    16777216 * readU8 buf (i + 3)

/-- Little-endian int16_t at offset i, in twos complement. -/
def readI16 (buf : ByteBuf) (i : Nat) : Int :=
  if readU16 buf i < 32768 then (readU16 buf i : Int) else (readU16 buf i : Int) - 65536

/-- Wrapping unsigned-int subtraction a - b, the effect of the uint32_t
expression frame_counter - count_total in GetTimeOffset. -/
def u32sub (a b : Nat) : Nat :=
  (a % 4294967296 + 4294967296 - b % 4294967296) % 4294967296

/-- Effect of a C++ static_cast from double to int: truncation toward zero. -/
def cppTrunc (q : ℚ) : ℤ := if 0 ≤ q then ⌊q⌋ else ⌈q⌉

/-- HeaderPacket of svis_ros_nodelet.cc. -/
structure HeaderPacket where
  timestamp_ros_rx : ℚ := 0
  send_count : Nat := 0
  imu_count : Nat := 0
  strobe_count : Nat := 0
deriving DecidableEq, Inhabited

/-- ImuPacket of svis_ros_nodelet.cc; the constructor zero-initializes every
field, matching the derived default. -/
structure ImuPacket where
  timestamp_ros_rx : ℚ := 0
  timestamp_ros : ℚ := 0
  timestamp_teensy_raw : Nat := 0
  timestamp_teensy : ℚ := 0
  acc_raw : Int × Int × Int := (0, 0, 0)
  acc : ℚ × ℚ × ℚ := (0, 0, 0)
  gyro_raw : Int × Int × Int := (0, 0, 0)
  gyro : ℚ × ℚ × ℚ := (0, 0, 0)
deriving DecidableEq, Inhabited

/-- StrobePacket of svis_ros_nodelet.cc; the constructor zero-initializes
every field. -/
structure StrobePacket where
  timestamp_ros_rx : ℚ := 0
  timestamp_ros : ℚ := 0
  timestamp_teensy_raw : Nat := 0
  timestamp_teensy : ℚ := 0
  count : Nat := 0
  count_total : Nat := 0
deriving DecidableEq, Inhabited

/-- CameraPacket of svis_ros_nodelet.cc, restricted to the fields the
synchronization engine reads: metadata.frame_counter and the image header
stamp image.header.stamp (the host arrival time assigned by the camera
driver).  The pixel payload, camera info and remaining metadata words are
carried but never inspected by the engine, and are omitted. -/
structure CameraPacket where
  frame_counter : Nat := 0
  image_stamp : ℚ := 0
deriving DecidableEq, Inhabited

/-- Configuration parameters fetched by GetParams. -/
structure Config where
  camera_rate : Nat := 0
  gyro_sens : Fin 4 := 0
  acc_sens : Fin 4 := 0
  imu_filter_size : Nat := 0
deriving DecidableEq, Inhabited

/-- Member state of SVISNodelet; the defaults are the member initializers of
the source (strobe_count_total_ is initialized to
numeric_limits of unsigned int infinity(), which is 0 for an integral type). -/
structure SvisState where
  imu_buffer : List ImuPacket := []
  strobe_buffer : List StrobePacket := []
  camera_buffer : List CameraPacket := []
  time_offset_vec : List ℚ := []
  time_offset : ℚ := 0
  init_flag : Bool := true
  sent_pulse : Bool := false
  t_pulse : ℚ := 0
  sync_flag : Bool := true
  strobe_count_last : Nat := 0
  strobe_count_total : Nat := 0
  strobe_count_offset : Nat := 0
deriving DecidableEq, Inhabited

/-- Data handed to the downstream publishers during one loop iteration. -/
structure Outputs where
  imuRaw : List ImuPacket := []
  strobeRaw : List StrobePacket := []
  imuFiltered : List ImuPacket := []
  cameraStrobe : List (CameraPacket × StrobePacket) := []
deriving DecidableEq, Inhabited

/-- Outputs of an iteration that publishes nothing. -/
def noOutputs : Outputs := {}

/-- send_buffer_size of the source: HID frames are 64 bytes. -/
def send_buffer_size : Nat := 64

/-- checksum_index of the source. -/
def checksum_index : Nat := 62

/-- imu_index of the source: byte offsets of the three IMU slots. -/
def imuIndex : List Nat := [4, 20, 36]

/-- strobe_index of the source: byte offsets of the two strobe slots. -/
def strobeIndex : List Nat := [52, 57]

/-- Capacity given to strobe_buffer_ by set_capacity in onInit. -/
def strobeBufferCapacity : Nat := 10

/-- acc_sens_arr_ of the source, LSB per g. -/
def accSensArr (i : Fin 4) : ℚ := [16384, 8192, 4096, 2048].getD i.val 0

/-- gyro_sens_arr_ of the source, LSB per (deg/s): 131, 65.5, 32.8, 16.4. -/
def gyroSensArr (i : Fin 4) : ℚ := [131, 131 / 2, 164 / 5, 82 / 5].getD i.val 0

/-- g_ of the source: 9.80665. -/
def gravity : ℚ := 980665 / 100000

/-- rad_per_deg_ of the source: 0.0174533. -/
def radPerDeg : ℚ := 174533 / 10000000

/-- GetChecksum accumulator: a uint16_t sum of buf[0] .. buf[61], each byte
masked with 0xFF, wrapping modulo 2 ^ 16 at every addition exactly as the
uint16_t += operator does. -/
def getChecksumCalc (buf : ByteBuf) : Nat :=
  (List.range (send_buffer_size - 2)).foldl (fun a i => (a + readU8 buf i) % 65536) 0

/-- GetChecksum comparison: the frame is accepted when the computed sum equals
the little-endian uint16_t stored at offset 62 (the source returns 0 then). -/
def checksumOk (buf : ByteBuf) : Bool :=
  decide (getChecksumCalc buf = readU16 buf checksum_index)

/-- GetHeader: receive timestamp, send_count (uint16), imu_count and
strobe_count (uint8 each) from bytes 0..3. -/
def getHeader (now : ℚ) (buf : ByteBuf) : HeaderPacket :=
  { timestamp_ros_rx := now
    send_count := readU16 buf 0
    imu_count := readU8 buf 2
    strobe_count := readU8 buf 3 }

/-- GetImu: decode header.imu_count IMU slots.  The source indexes the
3-element array imu_index directly with the loop counter, so counts beyond 3
would read past the array; the model decodes at most the 3 real slots. -/
def getImu (cfg : Config) (initFlag : Bool) (timeOffset : ℚ) (header : HeaderPacket)
    (buf : ByteBuf) : List ImuPacket :=
  (List.range (min header.imu_count 3)).map fun i =>
    let ind := imuIndex.getD i 0
    let raw := readU32 buf ind
    let ts : ℚ := (raw : ℚ) / 1000000
    let a0 := readI16 buf (ind + 4)
    let a1 := readI16 buf (ind + 6)
    let a2 := readI16 buf (ind + 8)
    let g0 := readI16 buf (ind + 10)
    let g1 := readI16 buf (ind + 12)
    let g2 := readI16 buf (ind + 14)
    { timestamp_ros_rx := header.timestamp_ros_rx
      timestamp_ros := if initFlag then 0 else ts + timeOffset
      timestamp_teensy_raw := raw
      timestamp_teensy := ts
      acc_raw := (a0, a1, a2)
      acc := ((a0 : ℚ) / accSensArr cfg.acc_sens * gravity,
              (a1 : ℚ) / accSensArr cfg.acc_sens * gravity,
              (a2 : ℚ) / accSensArr cfg.acc_sens * gravity)
      gyro_raw := (g0, g1, g2)
      gyro := ((g0 : ℚ) / gyroSensArr cfg.gyro_sens * radPerDeg,
               (g1 : ℚ) / gyroSensArr cfg.gyro_sens * radPerDeg,
               (g2 : ℚ) / gyroSensArr cfg.gyro_sens * radPerDeg) }

/-- GetStrobe: decode header.strobe_count strobe slots (uint32 device stamp in
microseconds, then a uint8 count); count_total stays at its constructed value
0 here.  As with GetImu, at most the 2 real slots are decoded. -/
def getStrobe (initFlag : Bool) (timeOffset : ℚ) (header : HeaderPacket)
    (buf : ByteBuf) : List StrobePacket :=
  (List.range (min header.strobe_count 2)).map fun i =>
    let ind := strobeIndex.getD i 0
    let raw := readU32 buf ind
    let ts : ℚ := (raw : ℚ) / 1000000
    { timestamp_ros_rx := header.timestamp_ros_rx
      timestamp_ros := if initFlag then 0 else ts + timeOffset
      timestamp_teensy_raw := raw
      timestamp_teensy := ts
      count := readU8 buf (ind + 4)
      count_total := 0 }

/-- One step of GetStrobeTotal.  The state is the pair
(strobe_count_total_, strobe_count_last_).  On the very first event
(both state fields 0) the source sets the total to 1 and stores the packet
field count_total (truncated to uint8_t) in strobe_count_last_; afterwards it
accumulates a uint8_t difference, folding the rollover value 255 to 1, and
reduces the unsigned-int total modulo 2 ^ 32. -/
def getStrobeTotalStep (st : Nat × Nat) (p : StrobePacket) :
    (Nat × Nat) × StrobePacket :=
  if st.1 = 0 ∧ st.2 = 0 then
    ((1, p.count_total % 256), { p with count_total := 1 })
  else
    let diff :=
      if st.2 < p.count then p.count - st.2
      else if p.count < st.2 then
        (if (st.2 + p.count) % 256 = 255 then 1 else (st.2 + p.count) % 256)
      else 0
    let total := (st.1 + diff) % 4294967296
    ((total, p.count), { p with count_total := total })

/-- GetStrobeTotal over a packet vector: threads the counter state through the
packets and assigns each packet its count_total. -/
def getStrobeTotalRun (st : Nat × Nat) :
    List StrobePacket → (Nat × Nat) × List StrobePacket
  | [] => (st, [])
  | p :: ps =>
    let r := getStrobeTotalStep st p
    let rr := getStrobeTotalRun r.1 ps
    (rr.1, r.2 :: rr.2)

/-- A freshly decoded strobe packet carrying only a raw count, as produced by
GetStrobe (count_total 0, zeroed timestamps). -/
def mkCountPacket (c : Nat) : StrobePacket := { count := c }

/-- The count_total values GetStrobeTotal assigns to a stream of raw strobe
counts, starting from the initial counter state (0, 0). -/
def normalizeCounts (l : List Nat) : List Nat :=
  ((getStrobeTotalRun (0, 0) (l.map mkCountPacket)).2).map fun p => p.count_total

/-- Counts-level restatement of getStrobeTotalStep, used by the proofs; the
bridge to the packet-level definition is proved below. -/
def countsStep (st : Nat × Nat) (c : Nat) : (Nat × Nat) × Nat :=
  if st.1 = 0 ∧ st.2 = 0 then ((1, 0), 1)
  else
    let diff :=
      if st.2 < c then c - st.2
      else if c < st.2 then
        (if (st.2 + c) % 256 = 255 then 1 else (st.2 + c) % 256)
      else 0
    let total := (st.1 + diff) % 4294967296
    ((total, c), total)

/-- Counts-level run of GetStrobeTotal. -/
def countsRun (st : Nat × Nat) : List Nat → (Nat × Nat) × List Nat
  | [] => (st, [])
  | c :: cs =>
    let r := countsStep st c
    let rr := countsRun r.1 cs
    (rr.1, r.2 :: rr.2)

/-- push_back on a boost circular_buffer of the given capacity: when the
buffer is full the oldest (front) element is overwritten. -/
def pushRing (cap : Nat) (buf : List α) (x : α) : List α :=
  if cap ≤ buf.length then buf.drop 1 ++ [x] else buf ++ [x]

/-- PushImu / PushStrobe: append every packet of the vector. -/
def pushAll (cap : Nat) (buf : List α) (xs : List α) : List α :=
  xs.foldl (pushRing cap) buf

/-- CameraCallback: parse the metadata and append the packet to the 20-entry
camera ring buffer. -/
def cameraCallback (st : SvisState) (c : CameraPacket) : SvisState :=
  { st with camera_buffer := pushRing 20 st.camera_buffer c }

/-- GetImageMetadata frame counter: big-endian bytes 24..27 of the image data
assembled into a uint32_t. -/
def parseFrameCounter (data : List Nat) : Nat :=
  (data.getD 27 0 + 256 * data.getD 26 0 + 65536 * data.getD 25 0 +
    16777216 * data.getD 24 0) % 4294967296

/-- Stale-sample trimming in GetTimeOffset: while the front sample differs
from the back sample by more than 0.1 s, pop the front. -/
def trimStale (back : ℚ) : List ℚ → List ℚ
  | [] => []
  | x :: xs => if |x - back| > 1 / 10 then trimStale back xs else x :: xs

/-- GetTimeOffset of svis_ros_nodelet.cc.  First, once 100 offset samples have
accumulated, stale leading samples are trimmed, time_offset_ becomes their
mean and init_flag_ is cleared.  Then the pulse phase: if a pulse was sent and
0.5 s have elapsed, and either buffer is non-empty, the source samples when
strobe_buffer_.size() == 1 OR camera_buffer_.size() == 1 (its comment says
exactly one of each): it appends image stamp minus strobe device time to
time_offset_vec_, sets strobe_count_offset_ by wrapping uint32_t subtraction,
and pops the front of both buffers; calling front() on an empty buffer is
undefined behaviour in the source, modelled as none.  In every other
non-empty case both buffers are cleared.  If no pulse is pending, one is
sent. -/
def getTimeOffset (now : ℚ) (st : SvisState) : Option SvisState :=
  let st1 :=
    if 100 ≤ st.time_offset_vec.length then
      let v := trimStale (st.time_offset_vec.getLastD 0) st.time_offset_vec
      { st with
        time_offset_vec := v
        time_offset := v.sum / (v.length : ℚ)
        init_flag := false }
    else st
  if st1.sent_pulse then
    if now - st1.t_pulse < 1 / 2 then some st1
    else if 0 < st1.strobe_buffer.length ∨ 0 < st1.camera_buffer.length then
      if st1.strobe_buffer.length = 1 ∨ st1.camera_buffer.length = 1 then
        match st1.strobe_buffer, st1.camera_buffer with
        | s :: ss, c :: cs =>
          some { st1 with
            time_offset_vec := st1.time_offset_vec ++ [c.image_stamp - s.timestamp_teensy]
            strobe_count_offset := u32sub c.frame_counter s.count_total
            strobe_buffer := ss
            camera_buffer := cs
            sent_pulse := false }
        | _, _ => none
      else
        some { st1 with
          strobe_buffer := []
          camera_buffer := []
          sent_pulse := false }
    else some st1
  else
    some { st1 with sent_pulse := true, t_pulse := now }

/-- The averaged packet FilterImu builds from one window: the last popped
packet with its device timestamp replaced by the window mean cast to int
after adding 0.5 (whole seconds), and acc / gyro replaced by the
component-wise means. -/
def avgChunk (K : Nat) (w : List ImuPacket) : ImuPacket :=
  let base := w.getLastD default
  let tmean := (w.map fun p => p.timestamp_teensy).sum / (K : ℚ)
  { base with
    timestamp_teensy := ((cppTrunc (tmean + 1 / 2) : ℤ) : ℚ)
    acc := ((w.map fun p => p.acc.1).sum / (K : ℚ),
            (w.map fun p => p.acc.2.1).sum / (K : ℚ),
            (w.map fun p => p.acc.2.2).sum / (K : ℚ))
    gyro := ((w.map fun p => p.gyro.1).sum / (K : ℚ),
             (w.map fun p => p.gyro.2.1).sum / (K : ℚ),
             (w.map fun p => p.gyro.2.2).sum / (K : ℚ)) }

/-- The while loop of FilterImu, with explicit fuel: while at least K packets
are buffered, pop the front K, emit their average, and repeat.  With fuel at
least buf.length + 1 the fuel never runs out for K at least 1; the
non-terminating K = 0 case is analysed through filterImuGuard and
filterImuDrain below. -/
def filterImuAux (K : Nat) : Nat → List ImuPacket → List ImuPacket × List ImuPacket
  | 0, buf => ([], buf)
  | fuel + 1, buf =>
    if K ≤ buf.length then
      let r := filterImuAux K fuel (buf.drop K)
      (avgChunk K (buf.take K) :: r.1, r.2)
    else ([], buf)

/-- FilterImu: returns the emitted averaged packets and the remaining
buffer. -/
def filterImu (K : Nat) (buf : List ImuPacket) : List ImuPacket × List ImuPacket :=
  filterImuAux K (buf.length + 1) buf

/-- Loop guard of FilterImu: imu_buffer_.size() greater or equal
imu_filter_size_. -/
def filterImuGuard (K : Nat) (buf : List ImuPacket) : Prop := K ≤ buf.length

instance (K : Nat) (buf : List ImuPacket) : Decidable (filterImuGuard K buf) :=
  Nat.decLe K buf.length

/-- Effect of one FilterImu loop body on the buffer: the inner for loop pops
the front K packets. -/
def filterImuDrain (K : Nat) (buf : List ImuPacket) : List ImuPacket := buf.drop K

/-- Staleness test for a buffered image in AssociateStrobe:
now minus image.header.stamp exceeds 1.0 second. -/
def cameraIsStale (now : ℚ) (c : CameraPacket) : Bool :=
  decide (now - c.image_stamp > 1)

/-- The strobe/camera match test of AssociateStrobe: count_total plus
strobe_count_offset_, in wrapping unsigned-int arithmetic, equals the image
frame counter. -/
def strobeCameraMatch (count_total off frame_counter : Nat) : Bool :=
  decide ((count_total + off) % 4294967296 = frame_counter)

/-- Inner camera loop of AssociateStrobe for one strobe: scan the camera
buffer from the oldest entry; on a match erase that camera and stop; a
non-matching stale camera is erased; any other camera is kept.  Returns the
resulting camera buffer and the matched camera, if any. -/
def associateScanCameras (off : Nat) (now : ℚ) (s : StrobePacket) :
    List CameraPacket → List CameraPacket × Option CameraPacket
  | [] => ([], none)
  | c :: cs =>
    if strobeCameraMatch s.count_total off c.frame_counter then (cs, some c)
    else if cameraIsStale now c then associateScanCameras off now s cs
    else
      let r := associateScanCameras off now s cs
      (c :: r.1, r.2)

/-- Result of the outer strobe loop of AssociateStrobe. -/
structure AssocLoopResult where
  strobes : List StrobePacket := []
  cameras : List CameraPacket := []
  emitted : List (CameraPacket × StrobePacket) := []
  failCount : Nat := 0
deriving DecidableEq, Inhabited

/-- Outer strobe loop of AssociateStrobe: for each strobe, scan the camera
buffer; on a match the pair is pushed and the strobe erased; otherwise
fail_count is incremented and a stale strobe (now minus timestamp_ros_rx
exceeds 1.0 s) is erased. -/
def associateLoop (off : Nat) (now : ℚ) :
    List StrobePacket → List CameraPacket → AssocLoopResult
  | [], cams => { cameras := cams }
  | s :: ss, cams =>
    let scan := associateScanCameras off now s cams
    match scan.2 with
    | some c =>
      let r := associateLoop off now ss scan.1
      { r with emitted := (c, s) :: r.emitted }
    | none =>
      let r := associateLoop off now ss scan.1
      if now - s.timestamp_ros_rx > 1 then { r with failCount := r.failCount + 1 }
      else { r with strobes := s :: r.strobes, failCount := r.failCount + 1 }

/-- Result of a full AssociateStrobe pass, including the updated sync flag. -/
structure AssocResult where
  strobes : List StrobePacket
  cameras : List CameraPacket
  emitted : List (CameraPacket × StrobePacket)
  failCount : Nat
  syncFlag : Bool
deriving DecidableEq

/-- AssociateStrobe: run the outer loop, then set sync_flag_ when fail_count
equals strobe_buffer_.max_size().  boost circular_buffer max_size() is the
allocator-dependent largest representable size, not the ring capacity, so it
is kept as the parameter maxSize here. -/
def associateStrobePass (maxSize off : Nat) (now : ℚ) (ss : List StrobePacket)
    (cams : List CameraPacket) (syncFlag : Bool) : AssocResult :=
  let r := associateLoop off now ss cams
  ⟨r.strobes, r.cameras, r.emitted, r.failCount,
    if r.failCount = maxSize then true else syncFlag⟩

/-- One num-positive iteration of the Run loop: verify the checksum (a
mismatch drops the packet, leaving the whole state untouched, and continues);
otherwise decode the header, IMU and strobe slots, normalize the strobe
counts, publish the raw packets (the raw IMU publish is skipped unless
exactly 3 packets decoded, the fixed message size), push both buffers, and
then either run the clock initialization (init_flag_ set, then continue) or
filter the IMU buffer and run the association pass.  none models the
undefined front() call reachable inside GetTimeOffset. -/
def runIteration (cfg : Config) (maxSize : Nat) (now : ℚ) (st : SvisState)
    (buf : ByteBuf) : Option (SvisState × Outputs) :=
  if checksumOk buf = false then some (st, noOutputs)
  else
    let header := getHeader now buf
    let imus := getImu cfg st.init_flag st.time_offset header buf
    let strobes := getStrobe st.init_flag st.time_offset header buf
    let tot := getStrobeTotalRun (st.strobe_count_total, st.strobe_count_last) strobes
    let st1 := { st with
      strobe_count_total := tot.1.1
      strobe_count_last := tot.1.2
      imu_buffer := pushAll 10 st.imu_buffer imus
      strobe_buffer := pushAll 10 st.strobe_buffer tot.2 }
    let outs0 : Outputs :=
      { imuRaw := if imus.length = 3 then imus else [], strobeRaw := tot.2 }
    if st1.init_flag then
      (getTimeOffset now st1).map fun st2 => (st2, outs0)
    else
      let fr := filterImu cfg.imu_filter_size st1.imu_buffer
      let st2 := { st1 with imu_buffer := fr.2 }
      let ar := associateStrobePass maxSize st2.strobe_count_offset now
        st2.strobe_buffer st2.camera_buffer st2.sync_flag
      some ({ st2 with
          strobe_buffer := ar.strobes
          camera_buffer := ar.cameras
          sync_flag := ar.syncFlag },
        { outs0 with imuFiltered := fr.1, cameraStrobe := ar.emitted })

/-- A 64-byte frame whose byte sum (1) disagrees with its stored checksum
word (0): byte 0 flipped to 1, everything else zero. -/
def c4Frame : ByteBuf := 1 :: List.replicate 63 0

/-- n copies of the raw-count pair 127, 255, the repeating tail of the
wraparound input below. -/
def pairsList (n : Nat) : List Nat := (List.replicate n [127, 255]).flatten

/-- Closed form of the count_total outputs produced by n pairs 127, 255
starting from total t and last count 255 while no wraparound occurs. -/
def pairsOuts : Nat → Nat → List Nat
  | _, 0 => []
  | t, n + 1 => (t + 126) :: (t + 254) :: pairsOuts (t + 254) n

/-- Number of 127, 255 pairs needed to push the 32-bit total to the brink of
wrapping: 256 + 254 * c5N = 4294967282. -/
def c5N : Nat := 16909319

/-- A raw strobe count stream on which the 32-bit total wraps: after the
prefix 5, 255 the total is 256, each pair 127, 255 adds 254, and the final
127 pushes the total past 2 ^ 32. -/
def c5CexInput : List Nat := 5 :: 255 :: (pairsList c5N ++ [127])

/-- Modelled from the claim wording for C6: rounding a time in seconds to the
nearest microsecond (the spec-side operation, compared against the code). -/
def specRoundMicro (q : ℚ) : ℚ := ((round (q * 1000000) : ℤ) : ℚ) / 1000000

/-- An IMU packet whose device time is 2.6 seconds. -/
def c6Pkt : ImuPacket := { timestamp_teensy := 13 / 5 }

/-- A three-sample IMU buffer of zeroed packets. -/
def c6Buf3 : List ImuPacket := List.replicate 3 default

/-- A three-sample IMU buffer for the termination witness. -/
def c9Buf : List ImuPacket := List.replicate 3 default

/-- A buffered image with frame counter 100 that arrived at t = 0. -/
def c7Cam : CameraPacket := { frame_counter := 100, image_stamp := 0 }

/-- A strobe with count_total 7 that cannot match c7Cam under offset 10. -/
def c7Strobe : StrobePacket := { count_total := 7 }

/-- A full strobe buffer: ten buffered strobes, none of which can match an
empty camera buffer. -/
def c8Strobes : List StrobePacket := List.replicate 10 default

/-- A strobe captured during the initialization pulse (device time 2 s,
count_total 3). -/
def c3Strobe : StrobePacket := { timestamp_teensy := 2, count_total := 3 }

/-- First buffered image during the pulse phase (frame counter 100, stamp
7 s). -/
def c3CamA : CameraPacket := { frame_counter := 100, image_stamp := 7 }

/-- Second buffered image during the pulse phase. -/
def c3CamB : CameraPacket := { frame_counter := 101, image_stamp := 8 }

/-- Clock-initialization state: pulse sent at t = 0, one strobe and two
images buffered. -/
def c3State : SvisState :=
  { sent_pulse := true
    t_pulse := 0
    strobe_buffer := [c3Strobe]
    camera_buffer := [c3CamA, c3CamB] }

/-- The state GetTimeOffset produces from c3State at now = 1: a sample is
taken and one image is left behind. -/
def c3Result : SvisState :=
  { c3State with
    time_offset_vec := [5]
    strobe_count_offset := 97
    strobe_buffer := []
    camera_buffer := [c3CamB]
    sent_pulse := false }

section Lemmas

/-- Folding the wrapping uint16_t addition over a list agrees with the plain
sum reduced modulo 2 ^ 16. -/
theorem foldl_mod_add (l : List Nat) : ∀ a : Nat,
    l.foldl (fun x b => (x + b) % 65536) (a % 65536) = (a + l.sum) % 65536 := by
  induction l with
  | nil => intro a; simp
  | cons b bs ih =>
    intro a
    simp only [List.foldl_cons, List.sum_cons]
    have h1 : (a % 65536 + b) % 65536 = (a + b) % 65536 := by omega
    rw [h1, ih (a + b)]
    omega

/-- Reading indices 0 .. n-1 of a list through getD enumerates its first n
elements. -/
theorem map_getD_range : ∀ (n : Nat) (l : List Nat), n ≤ l.length →
    (List.range n).map (fun i => l.getD i 0) = l.take n := by
  intro n
  induction n with
  | zero => simp
  | succ m ih =>
    intro l h
    have hm : m < l.length := by omega
    rw [List.range_succ, List.map_append, ih l (by omega), List.take_succ]
    simp [List.getD, List.getElem?_eq_getElem hm]

/-- The checksum accumulator of GetChecksum equals the sum of the first 62
bytes reduced modulo 2 ^ 16. -/
theorem getChecksumCalc_eq_sum (buf : ByteBuf) (h : 62 ≤ buf.length) :
    getChecksumCalc buf = (buf.take 62).sum % 65536 := by
  unfold getChecksumCalc send_buffer_size
  have h2 : (List.range 62).foldl (fun a i => (a + readU8 buf i) % 65536) 0
      = ((List.range 62).map (fun i => buf.getD i 0)).foldl (fun a b => (a + b) % 65536) 0 := by
    rw [List.foldl_map]
    rfl
  rw [show (64 - 2) = 62 from rfl, h2, map_getD_range 62 buf h]
  have h3 := foldl_mod_add (buf.take 62) 0
  simpa using h3

/-- getStrobeTotalStep on a freshly decoded packet is the counts-level
step. -/
theorem getStrobeTotalStep_counts (st : Nat × Nat) (c : Nat) :
    getStrobeTotalStep st (mkCountPacket c)
      = ((countsStep st c).1,
         { mkCountPacket c with count_total := (countsStep st c).2 }) := by
  simp only [getStrobeTotalStep, countsStep, mkCountPacket]
  split_ifs <;> rfl

/-- getStrobeTotalRun on freshly decoded packets is the counts-level run. -/
theorem getStrobeTotalRun_counts (l : List Nat) : ∀ st : Nat × Nat,
    (getStrobeTotalRun st (l.map mkCountPacket)).1 = (countsRun st l).1
    ∧ ((getStrobeTotalRun st (l.map mkCountPacket)).2).map (fun p => p.count_total)
        = (countsRun st l).2 := by
  induction l with
  | nil => intro st; exact ⟨rfl, rfl⟩
  | cons c cs ih =>
    intro st
    simp only [List.map_cons, getStrobeTotalRun, countsRun, getStrobeTotalStep_counts]
    obtain ⟨ih1, ih2⟩ := ih (countsStep st c).1
    exact ⟨ih1, by simp [ih2]⟩

/-- The assigned totals of normalizeCounts are those of the counts-level
run. -/
theorem normalizeCounts_eq_counts (l : List Nat) :
    normalizeCounts l = (countsRun (0, 0) l).2 := by
  unfold normalizeCounts
  exact (getStrobeTotalRun_counts l (0, 0)).2

/-- One counts-level step never decreases the total and adds at most 255 when
no wraparound can occur, and the assigned output is the new total. -/
theorem countsStep_facts (st : Nat × Nat) (c : Nat) (hc : c < 256)
    (hno : st.1 + 255 < 4294967296) :
    st.1 ≤ (countsStep st c).1.1 ∧ (countsStep st c).1.1 ≤ st.1 + 255
    ∧ (countsStep st c).2 = (countsStep st c).1.1 := by
  simp only [countsStep]
  split_ifs <;> dsimp only <;> exact ⟨by omega, by omega, rfl⟩

/-- While the 32-bit total cannot wrap, the outputs of the counts-level run
form a non-decreasing chain, all bounded below by the incoming total. -/
theorem countsRun_chain (l : List Nat) : ∀ st : Nat × Nat,
    (∀ c ∈ l, c < 256) → st.1 + 255 * l.length < 4294967296 →
    List.Chain' (fun a b => a ≤ b) ((countsRun st l).2)
    ∧ ∀ o ∈ (countsRun st l).2, st.1 ≤ o := by
  induction l with
  | nil => intro st _ _; exact ⟨List.chain'_nil, by simp [countsRun]⟩
  | cons c cs ih =>
    intro st hb hlen
    have hc : c < 256 := hb c (List.mem_cons_self c cs)
    have hlen' : st.1 + 255 < 4294967296 := by
      simp only [List.length_cons] at hlen; omega
    obtain ⟨h1, h2, h3⟩ := countsStep_facts st c hc hlen'
    have ihh := ih (countsStep st c).1
      (fun x hx => hb x (List.mem_cons_of_mem c hx))
      (by simp only [List.length_cons] at hlen; omega)
    simp only [countsRun]
    constructor
    · rw [List.chain'_cons']
      refine ⟨fun y hy => ?_, ihh.1⟩
      have hmem := List.mem_of_mem_head? hy
      have := ihh.2 y hmem
      omega
    · intro o ho
      rcases List.mem_cons.1 ho with rfl | ho2
      · omega
      · have := ihh.2 o ho2
        omega

/-- Unfolding equation of the counts-level run on a cons cell. -/
theorem countsRun_cons (st : Nat × Nat) (c : Nat) (cs : List Nat) :
    countsRun st (c :: cs)
      = ((countsRun (countsStep st c).1 cs).1,
         (countsStep st c).2 :: (countsRun (countsStep st c).1 cs).2) := rfl

/-- Appending input streams composes the counts-level run. -/
theorem countsRun_append (l1 l2 : List Nat) : ∀ st : Nat × Nat,
    countsRun st (l1 ++ l2)
      = ((countsRun (countsRun st l1).1 l2).1,
         (countsRun st l1).2 ++ (countsRun (countsRun st l1).1 l2).2) := by
  induction l1 with
  | nil => intro st; simp [countsRun]
  | cons c cs ih =>
    intro st
    simp only [List.cons_append, countsRun, List.append_eq]
    rw [ih (countsStep st c).1]

/-- One pair 127, 255 from state (t, 255): a rollover difference of 126 and a
plain difference of 128, totalling 254. -/
theorem countsRun_pair (t : Nat) (h : t + 254 < 4294967296) :
    countsRun (t, 255) [127, 255] = ((t + 254, 255), [t + 126, t + 254]) := by
  have e1 : (t + 126) % 4294967296 = t + 126 := Nat.mod_eq_of_lt (by omega)
  have e2 : (t + 126 + (255 - 127)) % 4294967296 = t + 254 := by omega
  simp only [countsRun, countsStep]
  norm_num [e1, e2]

/-- Running n pairs 127, 255 from state (t, 255) without wraparound adds
254 per pair and emits the closed-form outputs. -/
theorem countsRun_pairs : ∀ n t : Nat, t + 254 * n < 4294967296 →
    countsRun (t, 255) (pairsList n) = ((t + 254 * n, 255), pairsOuts t n) := by
  intro n
  induction n with
  | zero =>
    intro t _
    simp [pairsList, pairsOuts, countsRun]
  | succ m ih =>
    intro t h
    have hm : 254 * (m + 1) = 254 * m + 254 := by ring
    have hpl : pairsList (m + 1) = [127, 255] ++ pairsList m := by
      simp [pairsList, List.replicate_succ]
    rw [hpl, countsRun_append, countsRun_pair t (by omega)]
    rw [ih (t + 254) (by omega)]
    have harith : t + 254 + 254 * m = t + 254 * (m + 1) := by ring
    rw [harith]
    simp [pairsOuts]

/-- The pair outputs are non-empty for positive n. -/
theorem pairsOuts_ne_nil (n t : Nat) (h : 0 < n) : pairsOuts t n ≠ [] := by
  cases n with
  | zero => omega
  | succ m => simp [pairsOuts]

/-- The last output of n pairs is the final total t + 254 * n. -/
theorem pairsOuts_getLast : ∀ n t : Nat, 0 < n →
    (pairsOuts t n).getLast? = some (t + 254 * n) := by
  intro n
  induction n with
  | zero => intro t h; omega
  | succ m ih =>
    intro t _
    cases m with
    | zero => simp [pairsOuts]
    | succ k =>
      have hnext := ih (t + 254) (Nat.succ_pos k)
      have hne := pairsOuts_ne_nil (k + 1) (t + 254) (Nat.succ_pos k)
      have hsplit : pairsOuts t (k + 1 + 1)
          = [t + 126, t + 254] ++ pairsOuts (t + 254) (k + 1) := rfl
      rw [hsplit, List.getLast?_append_of_ne_nil _ hne, hnext]
      exact congrArg some (by ring)

/-- Full characterization of the FilterImu loop (with fuel) for a positive
window size: it emits one packet per complete window of K packets taken from
the front, each the average of its window, and leaves the remainder. -/
theorem filterImuAux_chars (K : Nat) (hK : 1 ≤ K) : ∀ (fuel : Nat) (buf : List ImuPacket),
    buf.length < fuel →
    (filterImuAux K fuel buf).1.length = buf.length / K
    ∧ (filterImuAux K fuel buf).2 = buf.drop (buf.length / K * K)
    ∧ ∀ j, j < buf.length / K →
        (filterImuAux K fuel buf).1.get? j
          = some (avgChunk K ((buf.drop (j * K)).take K)) := by
  intro fuel
  induction fuel with
  | zero => intro buf h; omega
  | succ f ih =>
    intro buf h
    by_cases hguard : K ≤ buf.length
    · have hdroplen : (buf.drop K).length = buf.length - K := by simp
      have hlt : (buf.drop K).length < f := by rw [hdroplen]; omega
      obtain ⟨ih1, ih2, ih3⟩ := ih (buf.drop K) hlt
      have hdiv : buf.length / K = (buf.length - K) / K + 1 :=
        Nat.div_eq_sub_div (by omega) hguard
      simp only [filterImuAux, if_pos hguard]
      refine ⟨?_, ?_, ?_⟩
      · simp only [List.length_cons, ih1, hdroplen]
        rw [hdiv]
      · rw [ih2, List.drop_drop]
        congr 1
        rw [hdroplen, hdiv]
        ring
      · intro j hj
        cases j with
        | zero => simp
        | succ i =>
          have hji : i < (buf.drop K).length / K := by
            rw [hdroplen]
            rw [hdiv] at hj
            omega
          rw [List.get?_cons_succ, ih3 i hji, List.drop_drop]
          have harith : K + i * K = (i + 1) * K := by ring
          rw [harith]
    · have hz : buf.length / K = 0 := Nat.div_eq_of_lt (by omega)
      simp only [filterImuAux, if_neg hguard]
      exact ⟨by simp [hz], by simp [hz], by intro j hj; rw [hz] at hj; omega⟩

/-- Iterating the loop-body buffer effect n times drops the front n * K
packets. -/
theorem filterImuDrain_iterate (K : Nat) : ∀ (n : Nat) (buf : List ImuPacket),
    (filterImuDrain K)^[n] buf = buf.drop (n * K) := by
  intro n
  induction n with
  | zero => intro buf; simp
  | succ m ih =>
    intro buf
    rw [Function.iterate_succ_apply, ih]
    unfold filterImuDrain
    rw [List.drop_drop]
    congr 1
    ring

/-- Facts about the inner camera scan: the scan never grows the camera
buffer (removing one entry on a match), and a matched camera satisfies the
wrapping count equation against its strobe. -/
theorem scan_facts (off : Nat) (now : ℚ) (s : StrobePacket) :
    ∀ cams : List CameraPacket,
      ((associateScanCameras off now s cams).2.elim 0 fun _ => 1)
          + (associateScanCameras off now s cams).1.length ≤ cams.length
      ∧ ∀ c, (associateScanCameras off now s cams).2 = some c →
          (s.count_total + off) % 4294967296 = c.frame_counter := by
  intro cams
  induction cams with
  | nil =>
    refine ⟨by simp [associateScanCameras], fun c hc => ?_⟩
    simp [associateScanCameras] at hc
  | cons d ds ih =>
    by_cases h1 : strobeCameraMatch s.count_total off d.frame_counter = true
    · have hred : associateScanCameras off now s (d :: ds) = (ds, some d) := by
        simp [associateScanCameras, h1]
      rw [hred]
      refine ⟨by simp only [Option.elim, List.length_cons]; omega, fun c hc => ?_⟩
      have hdc : d = c := by simpa using hc
      subst hdc
      simpa [strobeCameraMatch] using h1
    · by_cases h2 : cameraIsStale now d = true
      · have hred : associateScanCameras off now s (d :: ds)
            = associateScanCameras off now s ds := by
          simp [associateScanCameras, h1, h2]
        rw [hred]
        refine ⟨?_, ih.2⟩
        have := ih.1
        simp only [List.length_cons]
        omega
      · have hred : associateScanCameras off now s (d :: ds)
            = (d :: (associateScanCameras off now s ds).1,
               (associateScanCameras off now s ds).2) := by
          simp [associateScanCameras, h1, h2]
        rw [hred]
        refine ⟨?_, ih.2⟩
        have := ih.1
        simp only [List.length_cons]
        omega

/-- The outer loop of AssociateStrobe over an empty camera buffer: every
strobe fails, stale strobes are dropped, nothing is emitted, and fail_count
is the number of strobes. -/
theorem associateLoop_nil_cams (off : Nat) (now : ℚ) : ∀ ss : List StrobePacket,
    associateLoop off now ss []
      = { strobes := ss.filter fun s => ! decide (now - s.timestamp_ros_rx > 1)
          cameras := []
          emitted := []
          failCount := ss.length } := by
  intro ss
  induction ss with
  | nil => rfl
  | cons s ss ih =>
    simp only [associateLoop,
      show associateScanCameras off now s [] = ([], none) from rfl]
    by_cases hstale : now - s.timestamp_ros_rx > 1
    · rw [if_pos hstale, ih]
      simp [List.filter_cons, hstale]
    · rw [if_neg hstale, ih]
      simp [List.filter_cons, hstale]

end Lemmas

/-- C2: the spec says the first strobe event saves last_count = event.count
and that the raw counts 253, 254, 255, 0, 1 receive count_total 1, 2, 3, 4, 5.
The source instead stores the packet field count_total (still 0 after
decoding) into strobe_count_last_ on the first event, so the second event
measures a jump of 254 and the stream receives 1, 255, 256, 257, 258. -/
theorem c2_strobe_total_eval :
    normalizeCounts [253, 254, 255, 0, 1] = [1, 255, 256, 257, 258] := by decide

/-- C1: in an AssociateStrobe pass an image is emitted only when its frame
counter equals the strobe count_total plus count_offset (in wrapping 32-bit
arithmetic), and every match removes one image and one strobe from their
buffers: the surviving buffers plus the emitted pairs never exceed the
incoming buffer lengths. -/
theorem c1_associate_match_and_removal (off : Nat) (now : ℚ)
    (ss : List StrobePacket) (cams : List CameraPacket) :
    (∀ p ∈ (associateLoop off now ss cams).emitted,
        (p.2.count_total + off) % 4294967296 = p.1.frame_counter)
    ∧ (associateLoop off now ss cams).cameras.length
        + (associateLoop off now ss cams).emitted.length ≤ cams.length
    ∧ (associateLoop off now ss cams).strobes.length
        + (associateLoop off now ss cams).emitted.length ≤ ss.length := by
  induction ss generalizing cams with
  | nil => simp [associateLoop]
  | cons s ss ih =>
    obtain ⟨hlen, hmatch⟩ := scan_facts off now s cams
    obtain ⟨ih1, ih2, ih3⟩ := ih (associateScanCameras off now s cams).1
    rcases hscan : (associateScanCameras off now s cams).2 with _ | c
    · rw [hscan] at hlen
      simp only [associateLoop, hscan]
      by_cases hstale : now - s.timestamp_ros_rx > 1
      · rw [if_pos hstale]
        refine ⟨?_, ?_, ?_⟩ <;> dsimp only
        · exact ih1
        · simp only [Option.elim] at hlen; omega
        · simp only [List.length_cons]; omega
      · rw [if_neg hstale]
        refine ⟨?_, ?_, ?_⟩ <;> dsimp only
        · exact ih1
        · simp only [Option.elim] at hlen; omega
        · simp only [List.length_cons]; omega
    · rw [hscan] at hlen
      have heq := hmatch c hscan
      simp only [associateLoop, hscan]
      refine ⟨?_, ?_, ?_⟩
      · intro p hp
        rcases List.mem_cons.1 hp with rfl | hp2
        · exact heq
        · exact ih1 p hp2
      · simp only [Option.elim] at hlen
        simp only [List.length_cons]
        omega
      · simp only [List.length_cons]
        omega

/-- C7: during the camera scan for a strobe that matches no buffered image,
exactly the images older than 1.0 second (now minus arrival stamp above 1)
are removed from the image buffer and the rest survive. -/
theorem c7_stale_image_eviction (off : Nat) (now : ℚ) (s : StrobePacket)
    (cams : List CameraPacket)
    (h : ∀ c ∈ cams, strobeCameraMatch s.count_total off c.frame_counter = false) :
    associateScanCameras off now s cams
      = (cams.filter fun c => ! cameraIsStale now c, none) := by
  induction cams with
  | nil => rfl
  | cons d ds ih =>
    have hd := h d (List.mem_cons_self d ds)
    have hds := ih fun c hc => h c (List.mem_cons_of_mem d hc)
    simp only [associateScanCameras, List.filter_cons]
    rw [if_neg (by simp [hd])]
    by_cases hst : cameraIsStale now d = true
    · rw [if_pos hst, hds]
      simp [hst]
    · rw [if_neg hst, hds]
      simp [Bool.not_eq_true] at hst
      simp [hst]

/-- Witness for C7: the image that arrived at t = 0 with no matching strobe
is dropped by the scan at now = 1.5. -/
theorem c7_stale_image_eviction_witness :
    (∀ c ∈ [c7Cam], strobeCameraMatch c7Strobe.count_total 10 c.frame_counter = false)
    ∧ associateScanCameras 10 (3 / 2) c7Strobe [c7Cam] = ([], none) := by
  refine ⟨by decide, ?_⟩
  rw [c7_stale_image_eviction 10 (3 / 2) c7Strobe [c7Cam] (by decide)]
  have hst : cameraIsStale (3 / 2) c7Cam = true := by
    simp [cameraIsStale, c7Cam]
    norm_num
  simp [hst]

/-- C8: the resync trigger never fires: a pass over a full strobe buffer of
10 strobes with no matching image leaves fail_count at the buffer capacity
10, but the source compares fail_count against boost max_size() (any
allocator bound above the capacity), so sync_flag_ stays false and
count_offset is never recomputed. -/
theorem c8_resync_trigger_never_fires (m : Nat) (hm : strobeBufferCapacity < m) :
    (associateStrobePass m 0 0 c8Strobes [] false).failCount = strobeBufferCapacity
    ∧ (associateStrobePass m 0 0 c8Strobes [] false).syncFlag = false := by
  unfold associateStrobePass
  rw [associateLoop_nil_cams]
  have hlen : c8Strobes.length = 10 := by simp [c8Strobes]
  refine ⟨by simp [hlen, strobeBufferCapacity], ?_⟩
  simp only [hlen]
  rw [if_neg (by simp [strobeBufferCapacity] at hm; omega)]

/-- Witness for C8 at the 64-bit difference-type bound. -/
theorem c8_resync_trigger_never_fires_witness :
    (strobeBufferCapacity < 9223372036854775807)
    ∧ (associateStrobePass 9223372036854775807 0 0 c8Strobes [] false).syncFlag = false :=
  ⟨by decide, (c8_resync_trigger_never_fires 9223372036854775807 (by decide)).2⟩

/-- C3: evaluation of GetTimeOffset at a post-pulse state holding one strobe
and two images: the source samples (its acceptance condition is a
disjunction), appending 7 - 2 = 5 to the offset deque, setting count_offset
to 100 - 3 = 97 and popping one entry from each buffer, so a camera packet
survives; the claim requires this case to clear both buffers with no
sample. -/
theorem c3_pulse_sampling_eval :
    getTimeOffset 1 c3State = some c3Result
    ∧ c3Result.camera_buffer ≠ [] ∧ c3Result.time_offset_vec.length = 1 := by
  refine ⟨?_, by simp [c3Result, c3State], by simp [c3Result, c3State]⟩
  unfold getTimeOffset c3Result c3State c3Strobe c3CamA c3CamB
  norm_num [u32sub]

/-- C5 (amended): the count_total values assigned by GetStrobeTotal to a
stream of raw uint8 counts form a monotone non-decreasing sequence provided
the 32-bit unsigned accumulator never wraps, for which
255 * (number of events) < 2 ^ 32 is sufficient; with wraparound the assigned
values can decrease (see the counterexample). -/
theorem c5_count_total_monotone (l : List Nat) (hb : ∀ c ∈ l, c < 256)
    (hlen : 255 * l.length < 4294967296) :
    List.Chain' (fun a b => a ≤ b) (normalizeCounts l) := by
  rw [normalizeCounts_eq_counts]
  exact (countsRun_chain l (0, 0) hb (by simpa using hlen)).1

/-- Witness for C5 on the five-event rollover stream. -/
theorem c5_count_total_monotone_witness :
    (∀ c ∈ [253, 254, 255, 0, 1], c < 256) ∧
      255 * [253, 254, 255, 0, 1].length < 4294967296 ∧
      List.Chain' (fun a b => a ≤ b) (normalizeCounts [253, 254, 255, 0, 1]) :=
  ⟨by decide, by decide, c5_count_total_monotone _ (by decide) (by decide)⟩

/-- C5 counterexample: on the concrete raw-count stream c5CexInput the 32-bit
total wraps past 2 ^ 32, so the assigned count_total values are not monotone
non-decreasing: the claim as stated fails on the code. -/
theorem c5_count_total_counterexample :
    ¬ List.Chain' (fun a b => a ≤ b) (normalizeCounts c5CexInput) := by
  have hbound : 256 + 254 * c5N < 4294967296 := by norm_num [c5N]
  have hc5 : 256 + 254 * c5N = 4294967282 := by norm_num [c5N]
  have s1 : countsStep (0, 0) 5 = ((1, 0), 1) := by decide
  have s2 : countsStep (1, 0) 255 = ((256, 255), 256) := by decide
  have s3 : countsRun (4294967282, 255) [127] = ((112, 127), [112]) := by decide
  have hrun : (countsRun (0, 0) c5CexInput).2
      = (1 :: 256 :: pairsOuts 256 c5N) ++ [112] := by
    show (countsRun (0, 0) (5 :: 255 :: (pairsList c5N ++ [127]))).2 = _
    rw [countsRun_cons, s1]
    dsimp only
    rw [countsRun_cons, s2]
    dsimp only
    rw [countsRun_append, countsRun_pairs c5N 256 hbound]
    dsimp only
    rw [hc5, s3]
    rw [List.cons_append, List.cons_append]
  rw [normalizeCounts_eq_counts, hrun]
  intro hch
  have h2 := (List.chain'_append.1 hch).2.2
  have hlast : (1 :: 256 :: pairsOuts 256 c5N).getLast? = some 4294967282 := by
    have hne := pairsOuts_ne_nil c5N 256 (by norm_num [c5N])
    have hsplit : (1 :: 256 :: pairsOuts 256 c5N)
        = [1, 256] ++ pairsOuts 256 c5N := rfl
    rw [hsplit, List.getLast?_append_of_ne_nil _ hne,
      pairsOuts_getLast c5N 256 (by norm_num [c5N]), hc5]
  have h3 := h2 4294967282 (by rw [hlast]; rfl) 112 (by rfl)
  omega

/-- C6 (amended): with K = imu_filter_size at least 1, FilterImu repeatedly
removes the K oldest samples while at least K remain and emits one averaged
sample per window whose acc and gyro are component-wise means; its t_device,
however, is the window mean cast to int after adding 0.5, i.e. rounded to the
nearest whole second, not to the nearest microsecond; the remainder of fewer
than K samples stays buffered. -/
theorem c6_filter_imu_characterization (K : Nat) (buf : List ImuPacket) (hK : 1 ≤ K) :
    (filterImu K buf).1.length = buf.length / K
    ∧ (filterImu K buf).2 = buf.drop (buf.length / K * K)
    ∧ ∀ j, j < buf.length / K →
        (filterImu K buf).1.get? j
          = some (avgChunk K ((buf.drop (j * K)).take K)) := by
  unfold filterImu
  exact filterImuAux_chars K hK (buf.length + 1) buf (by omega)

/-- Witness for C6 on a three-sample buffer with window size 2: one average
is emitted and one sample stays. -/
theorem c6_filter_imu_characterization_witness :
    (1 ≤ 2) ∧ (filterImu 2 c6Buf3).1.length = c6Buf3.length / 2
      ∧ (filterImu 2 c6Buf3).2 = c6Buf3.drop (c6Buf3.length / 2 * 2) :=
  ⟨by decide, (c6_filter_imu_characterization 2 c6Buf3 (by decide)).1,
    (c6_filter_imu_characterization 2 c6Buf3 (by decide)).2.1⟩

/-- C6 counterexample: a single packet at t_device 2.6 s averaged with window
size 1: the claim says the emitted t_device is the mean rounded to the
nearest microsecond, 2.6; the code emits 3 (the mean truncated to int after
adding 0.5). -/
theorem c6_filter_imu_counterexample :
    (filterImu 1 [c6Pkt]).1.map (fun p => p.timestamp_teensy) = [3]
    ∧ specRoundMicro (([c6Pkt].map fun p => p.timestamp_teensy).sum / 1) = 13 / 5
    ∧ (3 : ℚ) ≠ 13 / 5 := by
  refine ⟨?_, ?_, by norm_num⟩
  · show (filterImuAux 1 2 [c6Pkt]).1.map _ = [3]
    simp only [filterImuAux, List.length_cons, List.length_nil]
    norm_num
    simp only [List.take, List.drop, avgChunk, cppTrunc, c6Pkt]
    norm_num [Int.floor_eq_iff]
  · simp only [specRoundMicro, c6Pkt, List.map_cons, List.map_nil, List.sum_cons,
      List.sum_nil]
    norm_num [round_eq, Int.floor_eq_iff]

/-- C9: for window size K at least 1 the FilterImu drain loop terminates on
every buffer (after length iterations the guard fails), while with the
pre-configuration default K = 0 an iteration leaves the buffer unchanged and
the guard holds at every iteration, so the loop never terminates once
entered. -/
theorem c9_filter_imu_termination (K : Nat) (buf : List ImuPacket) (n : Nat) :
    (1 ≤ K → ¬ filterImuGuard K ((filterImuDrain K)^[buf.length] buf))
    ∧ (filterImuDrain 0)^[n] buf = buf
    ∧ filterImuGuard 0 ((filterImuDrain 0)^[n] buf) := by
  refine ⟨fun hK => ?_, ?_, ?_⟩
  · rw [filterImuDrain_iterate]
    unfold filterImuGuard
    have h1 : buf.length * 1 ≤ buf.length * K := Nat.mul_le_mul_left _ hK
    simp only [List.length_drop]
    omega
  · rw [filterImuDrain_iterate]
    simp
  · rw [filterImuDrain_iterate]
    unfold filterImuGuard
    omega

/-- Witness for C9 on a three-sample buffer: with K = 2 the guard fails after
three drains, and with K = 0 five drains leave the buffer unchanged. -/
theorem c9_filter_imu_termination_witness :
    (1 ≤ 2) ∧ ¬ filterImuGuard 2 ((filterImuDrain 2)^[c9Buf.length] c9Buf)
      ∧ (filterImuDrain 0)^[5] c9Buf = c9Buf :=
  ⟨by decide, (c9_filter_imu_termination 2 c9Buf 5).1 (by decide),
    (c9_filter_imu_termination 2 c9Buf 5).2.1⟩

/-- C10: count_offset lives in a 32-bit unsigned field: the association test
count_total + count_offset == frame_counter is evaluated modulo 2 ^ 32, so a
strobe matches exactly when the congruence holds, and the offset computed by
wrapping uint32_t subtraction always makes the calibration pair match, also
when frame_counter is smaller than count_total. -/
theorem c10_count_offset_modular (fc ct off : Nat) (hfc : fc < 4294967296)
    (hct : ct < 4294967296) :
    (strobeCameraMatch ct off fc = true ↔ Nat.ModEq 4294967296 (ct + off) fc)
    ∧ strobeCameraMatch ct (u32sub fc ct) fc = true := by
  constructor
  · unfold strobeCameraMatch Nat.ModEq
    rw [decide_eq_true_iff]
    omega
  · unfold strobeCameraMatch u32sub
    rw [decide_eq_true_iff]
    omega

/-- Witness for C10 at frame_counter 5 and count_total 10 (a logically
negative offset). -/
theorem c10_count_offset_modular_witness :
    (5 < 4294967296) ∧ strobeCameraMatch 10 (u32sub 5 10) 5 = true :=
  ⟨by decide, (c10_count_offset_modular 5 10 0 (by decide) (by decide)).2⟩

/-- C4: a 64-byte frame is accepted exactly when the wrapping uint16_t sum of
bytes 0..61 equals the little-endian uint16_t at offset 62, and on a mismatch
the iteration returns with the state untouched and nothing published (the
loop continues). -/
theorem c4_checksum_accept_iff (cfg : Config) (maxSize : Nat) (now : ℚ)
    (st : SvisState) (buf : ByteBuf) (h : buf.length = 64) :
    (checksumOk buf = true ↔ (buf.take 62).sum % 65536 = readU16 buf 62)
    ∧ (checksumOk buf = false →
        runIteration cfg maxSize now st buf = some (st, noOutputs)) := by
  constructor
  · unfold checksumOk checksum_index
    rw [decide_eq_true_iff, getChecksumCalc_eq_sum buf (by omega)]
  · intro hbad
    unfold runIteration
    rw [if_pos hbad]

/-- Witness for C4: a concrete corrupted frame is rejected and leaves the
default state unchanged. -/
theorem c4_checksum_accept_iff_witness :
    (c4Frame.length = 64) ∧ checksumOk c4Frame = false ∧
      runIteration default 0 0 default c4Frame = some (default, noOutputs) :=
  ⟨by decide, by decide,
    (c4_checksum_accept_iff default 0 0 default c4Frame (by decide)).2 (by decide)⟩

end Svis
